import Mathlib

/-!
# Verification of the blog API's visibility, mutation and pagination engine

Shallow embedding of the FastAPI blog service (`main.py`, `models.py`,
`database.py`, `schemas.py`).  The SQLAlchemy tables become Lean lists of
structures, a request-scoped session becomes explicit state passing, and the
`HTTPException`-raising handlers become functions into `Except`.  SQL queries
(`filter`, `join`, `first`, `count`, `offset`, `limit`) are translated to the
corresponding list operations, preserving evaluation order of the handlers.
-/

set_option autoImplicit false

namespace BlogApi

/-- Row of the `users` table (`models.User`).  `role ∈ {admin, author, reader}`
is validated at write time; the credential hash is kept abstract as a string. -/
structure User where
  id : Nat
  username : String
  email : String
  password : String
  role : String
  deriving Repr, DecidableEq

/-- Row of the `status` table (`models.Status`). -/
structure Status where
  id : Nat
  name : String
  description : String
  deriving Repr, DecidableEq

/-- Row of the `posts` table (`models.Post`).  `status_id` is a nullable FK
(`ondelete='SET NULL'`), hence an `Option`; `created_at` is an abstract
timestamp used only for ordering.  (The ORM-managed `updated_at` column is not
modelled; no verified operation reads it.) -/
structure Post where
  id : Nat
  title : String
  content : String
  author_id : Nat
  status_id : Option Nat
  created_at : Nat
  deriving Repr, DecidableEq

/-- Row of the `likes` table (`models.Like`). -/
structure Like where
  id : Nat
  post_id : Nat
  user_id : Nat
  deriving Repr, DecidableEq

/-- Row of the `tags` table (`models.Tag`). -/
structure Tag where
  id : Nat
  name : String
  deriving Repr, DecidableEq

/-- Row of the `comments` table (`models.Comment`). -/
structure Comment where
  id : Nat
  content : String
  post_id : Nat
  author_id : Nat
  deriving Repr, DecidableEq

/-- The database state: one list per table, the `post_tags` association table
as a list of `(post_id, tag_id)` pairs, plus the autoincrement counters. -/
structure DB where
  users : List User
  posts : List Post
  likes : List Like
  tags : List Tag
  statuses : List Status
  comments : List Comment
  postTags : List (Nat × Nat)
  nextUserId : Nat
  nextPostId : Nat
  nextLikeId : Nat
  nextTagId : Nat
  deriving Repr, DecidableEq

/-- `fastapi.HTTPException`: a status code plus a detail message. -/
structure HTTPException where
  status_code : Nat
  detail : String
  deriving Repr, DecidableEq

/-- `GET /posts/{post_id}` (`get_post` in `main.py`): fetch the post by id,
404 when absent; a non-published post (`status_id != 2`) is returned only to
an authenticated admin or its author, otherwise 404 — never 403. -/
def get_post (db : DB) (post_id : Nat) (current_user : Option User) :
    Except HTTPException Post :=
  match db.posts.find? (fun p => p.id == post_id) with
  | none => .error ⟨404, "Post not found"⟩
  | some post =>
    if post.status_id != some 2 then
      match current_user with
      | none => .error ⟨404, "Post not found"⟩
      | some u =>
        if u.role != "admin" && u.id != post.author_id then
          .error ⟨404, "Post not found"⟩
        else
          .ok post
    else
      .ok post

/-- The spec's read rule (§4.2 `canView`), written from the spec's words for
comparison with `get_post`: anonymous sees only published; admin sees all;
an authenticated non-admin sees own posts and published posts. -/
def canView (principal : Option User) (post : Post) : Bool :=
  match principal with
  | none => post.status_id == some 2
  | some u =>
    if u.role == "admin" then true
    else u.id == post.author_id || post.status_id == some 2

/-- C1: for every existing post, `get_post` returns it iff the principal may
view it per the spec's read rule, and a non-visible post yields 404 Not Found
(never 403 Forbidden). -/
theorem get_post_returns_iff_canView (db : DB) (post_id : Nat)
    (cu : Option User) (P : Post)
    (hP : db.posts.find? (fun p => p.id == post_id) = some P) :
    (get_post db post_id cu = .ok P ↔ canView cu P = true) ∧
    (canView cu P = false →
      get_post db post_id cu = .error ⟨404, "Post not found"⟩) := by
  unfold get_post canView
  rw [hP]
  cases cu with
  | none =>
    by_cases h : P.status_id = some 2 <;> simp [h]
  | some u =>
    by_cases hrole : u.role = "admin" <;>
      by_cases hown : u.id = P.author_id <;>
        by_cases h : P.status_id = some 2 <;>
          simp [h, hrole, hown]

/-- Concrete instantiation of `get_post_returns_iff_canView`: a draft post is
invisible to an anonymous principal and `get_post` answers 404. -/
theorem get_post_returns_iff_canView_witness :
    get_post ⟨[], [⟨1, "t", "c", 7, some 1, 0⟩], [], [], [], [], [], 1, 2, 1, 1⟩
        1 none = .error ⟨404, "Post not found"⟩ :=
  (get_post_returns_iff_canView
    ⟨[], [⟨1, "t", "c", 7, some 1, 0⟩], [], [], [], [], [], 1, 2, 1, 1⟩
    1 none ⟨1, "t", "c", 7, some 1, 0⟩ (by decide)).2 (by decide)

/-- Case-insensitive substring test: SQL `column ILIKE '%pat%'` on the chars
of the two strings. -/
def charsContain (pat : List Char) : List Char → Bool
  | [] => pat.isEmpty
  | c :: rest => pat.isPrefixOf (c :: rest) || charsContain pat rest

/-- `Post.title.ilike(f"%{search}%")`: case-insensitive containment, with the
SQL case folding modelled character-wise. -/
def ilike (column search : String) : Bool :=
  charsContain (search.toList.map Char.toLower) (column.toList.map Char.toLower)

/-- One insertion step of `order_by(created_at.desc())`. -/
def insertByCreatedDesc (p : Post) : List Post → List Post
  | [] => [p]
  | q :: rest =>
    if q.created_at ≤ p.created_at then p :: q :: rest
    else q :: insertByCreatedDesc p rest

/-- `query.order_by(models.Post.created_at.desc())` as an insertion sort. -/
def orderByCreatedDesc (l : List Post) : List Post :=
  l.foldr insertByCreatedDesc []

/-- The `PaginatedResponse` shape (`schemas.PaginatedResponse`). -/
structure Paginated (α : Type) where
  items : List α
  total : Nat
  pages : Nat
  current_page : Nat
  deriving Repr, DecidableEq

/-- `paginate` from `database.py`: `total = query.count()`,
`items = query.offset((page-1)*limit).limit(limit)`,
`pages = (total + limit - 1) // limit`. -/
def paginate {α : Type} (query : List α) (page limit : Nat) :
    Paginated α :=
  let total := query.length
  { items := (query.drop ((page - 1) * limit)).take limit
    total := total
    pages := (total + limit - 1) / limit
    current_page := page }

/-- `GET /posts` (`list_posts` in `main.py`): visibility filter (anonymous →
published only; admin → all; otherwise own or published), then the optional
search filter on title or content, then ordering and pagination.  `search`
is tested by Python truthiness, so `None` and `""` both skip the filter. -/
def list_posts (db : DB) (page : Nat) (limit : Nat) (search : Option String)
    (current_user : Option User) : Paginated Post :=
  let query := db.posts
  let query :=
    match current_user with
    | none => query.filter (fun p => p.status_id == some 2)
    | some u =>
      if u.role == "admin" then query
      else query.filter (fun p => p.author_id == u.id || p.status_id == some 2)
  let query :=
    match search with
    | some s =>
      if s = "" then query
      else query.filter (fun p => ilike p.title s || ilike p.content s)
    | none => query
  paginate (orderByCreatedDesc query) page limit

theorem mem_insertByCreatedDesc {p q : Post} {l : List Post}
    (h : q ∈ insertByCreatedDesc p l) : q = p ∨ q ∈ l := by
  induction l with
  | nil => simpa [insertByCreatedDesc] using h
  | cons a rest ih =>
    by_cases hle : a.created_at ≤ p.created_at
    · simp only [insertByCreatedDesc, if_pos hle] at h
      exact List.mem_cons.mp h
    · simp only [insertByCreatedDesc, if_neg hle] at h
      rcases List.mem_cons.mp h with h | h
      · exact .inr (by simp [h])
      · rcases ih h with h | h
        · exact .inl h
        · exact .inr (by simp [h])

theorem mem_orderByCreatedDesc {q : Post} {l : List Post}
    (h : q ∈ orderByCreatedDesc l) : q ∈ l := by
  induction l with
  | nil => simpa [orderByCreatedDesc] using h
  | cons a rest ih =>
    simp only [orderByCreatedDesc, List.foldr] at h
    rcases mem_insertByCreatedDesc h with h | h
    · simp [h]
    · exact List.mem_cons_of_mem a (ih h)

theorem mem_paginate_items {α : Type} {x : α} {query : List α}
    {page limit : Nat} (h : x ∈ (paginate query page limit).items) :
    x ∈ query := by
  simp only [paginate] at h
  exact List.mem_of_mem_drop (List.mem_of_mem_take h)

/-- FastAPI's query-parameter layer for `page: int = Query(1, gt=0)` and
`limit: int = Query(10, gt=0, le=100)`: an omitted parameter takes its
default (1 resp. 10); `page ≤ 0`, `limit ≤ 0` or `limit > 100` are rejected
with a 422 validation error before the handler runs. -/
def validate_page_limit (page limit : Option Int) :
    Except HTTPException (Nat × Nat) :=
  let p := page.getD 1
  let l := limit.getD 10
  if p ≤ 0 then .error ⟨422, "Input should be greater than 0"⟩
  else if l ≤ 0 then .error ⟨422, "Input should be greater than 0"⟩
  else if 100 < l then
    .error ⟨422, "Input should be less than or equal to 100"⟩
  else .ok (p.toNat, l.toNat)

/-- C2: every post on any page an anonymous caller gets from `GET /posts`,
with any search string, has status published (`status_id = 2`). -/
theorem list_posts_anonymous_only_published (db : DB) (page limit : Nat)
    (search : Option String) (P : Post)
    (hmem : P ∈ (list_posts db page limit search none).items) :
    P.status_id = some 2 := by
  simp only [list_posts] at hmem
  have hq := mem_orderByCreatedDesc (mem_paginate_items hmem)
  have hvis : P ∈ db.posts.filter (fun p => p.status_id == some 2) := by
    cases search with
    | none => exact hq
    | some s =>
      by_cases hs : s = ""
      · simpa [hs] using hq
      · have hq2 : P ∈ (db.posts.filter (fun p => p.status_id == some 2)).filter
            (fun p => ilike p.title s || ilike p.content s) := by
          simpa [hs] using hq
        exact (List.mem_filter.mp hq2).1
  simpa using (List.mem_filter.mp hvis).2

/-- Concrete instantiation of `list_posts_anonymous_only_published`: the only
post an anonymous search can return in a mixed draft/published database is
the published one. -/
theorem list_posts_anonymous_only_published_witness :
    (⟨2, "hello world", "body", 7, some 2, 5⟩ : Post).status_id = some 2 :=
  list_posts_anonymous_only_published
    ⟨[], [⟨1, "hello draft", "body", 7, some 1, 9⟩,
          ⟨2, "hello world", "body", 7, some 2, 5⟩], [], [], [], [], [],
      1, 3, 1, 1⟩
    1 10 (some "hello") ⟨2, "hello world", "body", 7, some 2, 5⟩ (by decide)

/-- C10: over any filtered set, `paginate` reports `pages = ⌈total/limit⌉`,
echoes the requested page as `current_page`, and returns at most `limit`
items; omitted page/limit default to 1 and 10, and a limit above 100 is
rejected by the parameter layer. -/
theorem paginate_pagination_contract {α : Type} (query : List α)
    (page limit : Nat) (lbig : Int) (hp : 1 ≤ page) (hl : 0 < limit)
    (hle : limit ≤ 100) (hbig : 100 < lbig) :
    (paginate query page limit).pages = query.length ⌈/⌉ limit ∧
    (paginate query page limit).current_page = page ∧
    (paginate query page limit).items.length ≤ limit ∧
    validate_page_limit none none = .ok (1, 10) ∧
    validate_page_limit none (some lbig) =
      .error ⟨422, "Input should be less than or equal to 100"⟩ := by
  refine ⟨?_, rfl, ?_, rfl, ?_⟩
  · simp [paginate, Nat.ceilDiv_eq_add_pred_div]
  · simp only [paginate, List.length_take]
    exact min_le_left _ _
  · have h0 : ¬ (lbig ≤ 0) := by omega
    simp [validate_page_limit, h0, hbig]

/-- Concrete instantiation of `paginate_pagination_contract` on a 3-element
set with page 1 and limit 2. -/
theorem paginate_pagination_contract_witness :
    (paginate ([10, 20, 30] : List Nat) 1 2).pages =
      ([10, 20, 30] : List Nat).length ⌈/⌉ 2 ∧
    (paginate ([10, 20, 30] : List Nat) 1 2).current_page = 1 ∧
    (paginate ([10, 20, 30] : List Nat) 1 2).items.length ≤ 2 ∧
    validate_page_limit none none = .ok (1, 10) ∧
    validate_page_limit none (some 101) =
      .error ⟨422, "Input should be less than or equal to 100"⟩ :=
  paginate_pagination_contract [10, 20, 30] 1 2 101
    (by decide) (by decide) (by decide) (by decide)

/-- Response shape of `GET /posts/{post_id}/with-like`
(`schemas.PostWithLikeStatus`): the post plus `is_liked` and `likes_count`. -/
structure PostWithLikeStatus where
  post : Post
  is_liked : Bool
  likes_count : Nat
  deriving Repr, DecidableEq

/-- `GET /posts/{post_id}/with-like` (`get_post_with_like_status` in
`main.py`): fetch the post by id (404 when absent), compute `is_liked` for an
authenticated requester and the like count; no visibility rule is applied. -/
def get_post_with_like_status (db : DB) (post_id : Nat)
    (current_user : Option User) : Except HTTPException PostWithLikeStatus :=
  match db.posts.find? (fun p => p.id == post_id) with
  | none => .error ⟨404, "Post not found"⟩
  | some post =>
    let is_liked :=
      match current_user with
      | some u =>
        (db.likes.find? (fun l => l.post_id == post_id && l.user_id == u.id)).isSome
      | none => false
    let likes_count := (db.likes.filter (fun l => l.post_id == post_id)).length
    .ok ⟨post, is_liked, likes_count⟩

/-- C3: for every existing post — drafts included — and every principal,
anonymous included, the with-like endpoint returns the post together with the
like count and the per-user flag; no visibility check is applied. -/
theorem get_post_with_like_status_ignores_visibility (db : DB) (post_id : Nat)
    (cu : Option User) (P : Post)
    (hP : db.posts.find? (fun p => p.id == post_id) = some P) :
    get_post_with_like_status db post_id cu = .ok
      ⟨P,
       match cu with
       | some u =>
         (db.likes.find? (fun l => l.post_id == post_id && l.user_id == u.id)).isSome
       | none => false,
       (db.likes.filter (fun l => l.post_id == post_id)).length⟩ := by
  unfold get_post_with_like_status
  rw [hP]

/-- Concrete instantiation of `get_post_with_like_status_ignores_visibility`:
a draft post (`status_id = 1`) is handed to an anonymous requester, with its
like count. -/
theorem get_post_with_like_status_ignores_visibility_witness :
    get_post_with_like_status
      ⟨[], [⟨1, "draft", "secret", 7, some 1, 0⟩], [⟨1, 1, 9⟩], [], [], [],
        [], 1, 2, 2, 1⟩ 1 none
      = .ok ⟨⟨1, "draft", "secret", 7, some 1, 0⟩, false, 1⟩ :=
  get_post_with_like_status_ignores_visibility
    ⟨[], [⟨1, "draft", "secret", 7, some 1, 0⟩], [⟨1, 1, 9⟩], [], [], [],
      [], 1, 2, 2, 1⟩ 1 none ⟨1, "draft", "secret", 7, some 1, 0⟩ (by decide)

/-- The database state an operation leaves behind: the new state on success,
the original state on failure (the handler's `db.rollback()` / the fact that
no write was issued before the `raise`). -/
def stateAfter (db : DB) (r : Except HTTPException DB) : DB :=
  match r with
  | .ok db1 => db1
  | .error _ => db

/-- `POST /posts/{post_id}/like` (`like_post` in `main.py`): 404 when the
post is absent, 409 when a like for (post, user) already exists, otherwise
insert one `Like` row. -/
def like_post (db : DB) (post_id : Nat) (current_user : User) :
    Except HTTPException DB :=
  match db.posts.find? (fun p => p.id == post_id) with
  | none => .error ⟨404, "Post not found"⟩
  | some _ =>
    match db.likes.find?
        (fun l => l.post_id == post_id && l.user_id == current_user.id) with
    | some _ => .error ⟨409, "Post already liked"⟩
    | none =>
      .ok { db with
              likes := db.likes ++ [⟨db.nextLikeId, post_id, current_user.id⟩],
              nextLikeId := db.nextLikeId + 1 }

/-- `DELETE /posts/{post_id}/like` (`unlike_post` in `main.py`): 404 when no
like for (post, user) exists, otherwise delete that row.  (The post itself is
never looked up.) -/
def unlike_post (db : DB) (post_id : Nat) (current_user : User) :
    Except HTTPException DB :=
  match db.likes.find?
      (fun l => l.post_id == post_id && l.user_id == current_user.id) with
  | none => .error ⟨404, "Post not liked"⟩
  | some like => .ok { db with likes := db.likes.erase like }

/-- Whether a `Like` row for the (post, user) pair exists. -/
def pairLiked (db : DB) (post_id user_id : Nat) : Bool :=
  (db.likes.find? (fun l => l.post_id == post_id && l.user_id == user_id)).isSome

/-- Number of `Like` rows for the (post, user) pair. -/
def pairLikeCount (db : DB) (post_id user_id : Nat) : Nat :=
  (db.likes.filter (fun l => l.post_id == post_id && l.user_id == user_id)).length

theorem find?_append_of_eq_none {α : Type} (p : α → Bool) {l₁ : List α}
    (l₂ : List α) (h : l₁.find? p = none) :
    (l₁ ++ l₂).find? p = l₂.find? p := by
  induction l₁ with
  | nil => rfl
  | cons a l ih =>
    by_cases ha : p a
    · simp [List.find?_cons_of_pos _ ha] at h
    · rw [List.find?_cons_of_neg _ ha] at h
      simpa [List.find?_cons_of_neg _ ha] using ih h

theorem filter_eq_nil_of_find?_eq_none {α : Type} {p : α → Bool}
    {l : List α} (h : l.find? p = none) : l.filter p = [] := by
  rw [List.filter_eq_nil]
  intro a ha
  exact List.find?_eq_none.mp h a ha

/-- C6: on an existing post, liking fails with 409 Conflict iff a like for
the (post, user) pair already exists and otherwise adds exactly one like;
unliking fails with 404 Not Found iff no such like exists and otherwise
removes one; and like, then unlike, then like again all succeed, the middle
state restoring the original like table (no residual state). -/
theorem like_unlike_contract (db : DB) (pid : Nat) (u : User)
    (hpost : (db.posts.find? (fun p => p.id == pid)).isSome = true) :
    (like_post db pid u = .error ⟨409, "Post already liked"⟩ ↔
      pairLiked db pid u.id = true) ∧
    (pairLiked db pid u.id = false →
      (like_post db pid u).isOk = true ∧
      pairLikeCount (stateAfter db (like_post db pid u)) pid u.id =
        pairLikeCount db pid u.id + 1) ∧
    (unlike_post db pid u = .error ⟨404, "Post not liked"⟩ ↔
      pairLiked db pid u.id = false) ∧
    (pairLiked db pid u.id = true →
      (unlike_post db pid u).isOk = true ∧
      pairLikeCount (stateAfter db (unlike_post db pid u)) pid u.id =
        pairLikeCount db pid u.id - 1) ∧
    (pairLiked db pid u.id = false →
      (unlike_post (stateAfter db (like_post db pid u)) pid u).isOk = true ∧
      (stateAfter (stateAfter db (like_post db pid u))
        (unlike_post (stateAfter db (like_post db pid u)) pid u)).likes =
          db.likes ∧
      (like_post (stateAfter (stateAfter db (like_post db pid u))
        (unlike_post (stateAfter db (like_post db pid u)) pid u)) pid
        u).isOk = true) := by
  obtain ⟨P, hP⟩ := Option.isSome_iff_exists.mp hpost
  cases hliked : db.likes.find?
      (fun l => l.post_id == pid && l.user_id == u.id) with
  | some L =>
    have hmem : L ∈ db.likes := List.mem_of_find?_eq_some hliked
    have hpred : (L.post_id == pid && L.user_id == u.id) = true := by
      have := List.find?_some hliked
      simpa using this
    obtain ⟨l₁, l₂, hnot, heq, herase⟩ := List.exists_erase_eq hmem
    refine ⟨?_, ?_, ?_, ?_, ?_⟩
    · simp [like_post, hP, hliked, pairLiked]
    · intro h
      simp [pairLiked, hliked] at h
    · simp [unlike_post, hliked, pairLiked]
    · intro _
      refine ⟨by simp [unlike_post, hliked, Except.isOk, Except.toBool], ?_⟩
      simp only [unlike_post, hliked, stateAfter, pairLikeCount]
      rw [herase, heq]
      simp [List.filter_append, hpred]
    · intro h
      simp [pairLiked, hliked] at h
  | none =>
    have hnotmem : (⟨db.nextLikeId, pid, u.id⟩ : Like) ∉ db.likes := by
      intro hmem
      have := List.find?_eq_none.mp hliked _ hmem
      simp at this
    refine ⟨?_, ?_, ?_, ?_, ?_⟩
    · simp [like_post, hP, hliked, pairLiked]
    · intro _
      refine ⟨by simp [like_post, hP, hliked, Except.isOk, Except.toBool], ?_⟩
      simp only [like_post, hP, hliked, stateAfter, pairLikeCount]
      simp [List.filter_append]
    · simp [unlike_post, hliked, pairLiked]
    · intro h
      simp [pairLiked, hliked] at h
    · intro _
      have hfind1 : (db.likes ++ [(⟨db.nextLikeId, pid, u.id⟩ : Like)]).find?
          (fun l => l.post_id == pid && l.user_id == u.id) =
          some ⟨db.nextLikeId, pid, u.id⟩ := by
        rw [find?_append_of_eq_none _ _ hliked]
        simp
      have herase1 : (db.likes ++ [(⟨db.nextLikeId, pid, u.id⟩ : Like)]).erase
          ⟨db.nextLikeId, pid, u.id⟩ = db.likes := by
        rw [List.erase_append_right _ hnotmem]
        simp
      refine ⟨?_, ?_, ?_⟩
      · simp [like_post, hP, hliked, stateAfter, unlike_post, hfind1,
          Except.isOk, Except.toBool]
      · simp [like_post, hP, hliked, stateAfter, unlike_post, hfind1, herase1]
      · simp [like_post, hP, hliked, stateAfter, unlike_post, hfind1, herase1,
          Except.isOk, Except.toBool]

/-- Concrete instantiation of `like_unlike_contract`: a fresh (post, user)
pair on a one-post database. -/
theorem like_unlike_contract_witness :
    (like_post ⟨[⟨5, "u", "e", "pw", "reader"⟩],
        [⟨1, "t", "c", 5, some 2, 0⟩], [], [], [], [], [], 6, 2, 1, 1⟩ 1
        ⟨5, "u", "e", "pw", "reader"⟩ = .error ⟨409, "Post already liked"⟩ ↔
      pairLiked ⟨[⟨5, "u", "e", "pw", "reader"⟩],
        [⟨1, "t", "c", 5, some 2, 0⟩], [], [], [], [], [], 6, 2, 1, 1⟩ 1 5 =
        true) ∧
    (pairLiked ⟨[⟨5, "u", "e", "pw", "reader"⟩],
        [⟨1, "t", "c", 5, some 2, 0⟩], [], [], [], [], [], 6, 2, 1, 1⟩ 1 5 =
        false →
      (like_post ⟨[⟨5, "u", "e", "pw", "reader"⟩],
        [⟨1, "t", "c", 5, some 2, 0⟩], [], [], [], [], [], 6, 2, 1, 1⟩ 1
        ⟨5, "u", "e", "pw", "reader"⟩).isOk = true ∧
      pairLikeCount (stateAfter ⟨[⟨5, "u", "e", "pw", "reader"⟩],
        [⟨1, "t", "c", 5, some 2, 0⟩], [], [], [], [], [], 6, 2, 1, 1⟩
        (like_post ⟨[⟨5, "u", "e", "pw", "reader"⟩],
          [⟨1, "t", "c", 5, some 2, 0⟩], [], [], [], [], [], 6, 2, 1, 1⟩ 1
          ⟨5, "u", "e", "pw", "reader"⟩)) 1 5 =
        pairLikeCount ⟨[⟨5, "u", "e", "pw", "reader"⟩],
          [⟨1, "t", "c", 5, some 2, 0⟩], [], [], [], [], [], 6, 2, 1, 1⟩ 1 5
          + 1) ∧
    (unlike_post ⟨[⟨5, "u", "e", "pw", "reader"⟩],
        [⟨1, "t", "c", 5, some 2, 0⟩], [], [], [], [], [], 6, 2, 1, 1⟩ 1
        ⟨5, "u", "e", "pw", "reader"⟩ = .error ⟨404, "Post not liked"⟩ ↔
      pairLiked ⟨[⟨5, "u", "e", "pw", "reader"⟩],
        [⟨1, "t", "c", 5, some 2, 0⟩], [], [], [], [], [], 6, 2, 1, 1⟩ 1 5 =
        false) ∧
    (pairLiked ⟨[⟨5, "u", "e", "pw", "reader"⟩],
        [⟨1, "t", "c", 5, some 2, 0⟩], [], [], [], [], [], 6, 2, 1, 1⟩ 1 5 =
        true →
      (unlike_post ⟨[⟨5, "u", "e", "pw", "reader"⟩],
        [⟨1, "t", "c", 5, some 2, 0⟩], [], [], [], [], [], 6, 2, 1, 1⟩ 1
        ⟨5, "u", "e", "pw", "reader"⟩).isOk = true ∧
      pairLikeCount (stateAfter ⟨[⟨5, "u", "e", "pw", "reader"⟩],
        [⟨1, "t", "c", 5, some 2, 0⟩], [], [], [], [], [], 6, 2, 1, 1⟩
        (unlike_post ⟨[⟨5, "u", "e", "pw", "reader"⟩],
          [⟨1, "t", "c", 5, some 2, 0⟩], [], [], [], [], [], 6, 2, 1, 1⟩ 1
          ⟨5, "u", "e", "pw", "reader"⟩)) 1 5 =
        pairLikeCount ⟨[⟨5, "u", "e", "pw", "reader"⟩],
          [⟨1, "t", "c", 5, some 2, 0⟩], [], [], [], [], [], 6, 2, 1, 1⟩ 1 5
          - 1) ∧
    (pairLiked ⟨[⟨5, "u", "e", "pw", "reader"⟩],
        [⟨1, "t", "c", 5, some 2, 0⟩], [], [], [], [], [], 6, 2, 1, 1⟩ 1 5 =
        false →
      (unlike_post (stateAfter ⟨[⟨5, "u", "e", "pw", "reader"⟩],
        [⟨1, "t", "c", 5, some 2, 0⟩], [], [], [], [], [], 6, 2, 1, 1⟩
        (like_post ⟨[⟨5, "u", "e", "pw", "reader"⟩],
          [⟨1, "t", "c", 5, some 2, 0⟩], [], [], [], [], [], 6, 2, 1, 1⟩ 1
          ⟨5, "u", "e", "pw", "reader"⟩)) 1
        ⟨5, "u", "e", "pw", "reader"⟩).isOk = true ∧
      (stateAfter (stateAfter ⟨[⟨5, "u", "e", "pw", "reader"⟩],
        [⟨1, "t", "c", 5, some 2, 0⟩], [], [], [], [], [], 6, 2, 1, 1⟩
        (like_post ⟨[⟨5, "u", "e", "pw", "reader"⟩],
          [⟨1, "t", "c", 5, some 2, 0⟩], [], [], [], [], [], 6, 2, 1, 1⟩ 1
          ⟨5, "u", "e", "pw", "reader"⟩))
        (unlike_post (stateAfter ⟨[⟨5, "u", "e", "pw", "reader"⟩],
          [⟨1, "t", "c", 5, some 2, 0⟩], [], [], [], [], [], 6, 2, 1, 1⟩
          (like_post ⟨[⟨5, "u", "e", "pw", "reader"⟩],
            [⟨1, "t", "c", 5, some 2, 0⟩], [], [], [], [], [], 6, 2, 1, 1⟩ 1
            ⟨5, "u", "e", "pw", "reader"⟩)) 1
          ⟨5, "u", "e", "pw", "reader"⟩)).likes =
        (⟨[⟨5, "u", "e", "pw", "reader"⟩], [⟨1, "t", "c", 5, some 2, 0⟩],
          [], [], [], [], [], 6, 2, 1, 1⟩ : DB).likes ∧
      (like_post (stateAfter (stateAfter ⟨[⟨5, "u", "e", "pw", "reader"⟩],
        [⟨1, "t", "c", 5, some 2, 0⟩], [], [], [], [], [], 6, 2, 1, 1⟩
        (like_post ⟨[⟨5, "u", "e", "pw", "reader"⟩],
          [⟨1, "t", "c", 5, some 2, 0⟩], [], [], [], [], [], 6, 2, 1, 1⟩ 1
          ⟨5, "u", "e", "pw", "reader"⟩))
        (unlike_post (stateAfter ⟨[⟨5, "u", "e", "pw", "reader"⟩],
          [⟨1, "t", "c", 5, some 2, 0⟩], [], [], [], [], [], 6, 2, 1, 1⟩
          (like_post ⟨[⟨5, "u", "e", "pw", "reader"⟩],
            [⟨1, "t", "c", 5, some 2, 0⟩], [], [], [], [], [], 6, 2, 1, 1⟩ 1
            ⟨5, "u", "e", "pw", "reader"⟩)) 1
          ⟨5, "u", "e", "pw", "reader"⟩)) 1
        ⟨5, "u", "e", "pw", "reader"⟩).isOk = true) :=
  like_unlike_contract
    ⟨[⟨5, "u", "e", "pw", "reader"⟩], [⟨1, "t", "c", 5, some 2, 0⟩],
      [], [], [], [], [], 6, 2, 1, 1⟩ 1 ⟨5, "u", "e", "pw", "reader"⟩
    (by decide)

/-- `filter_published_posts` from `main.py`: public callers see only
published posts (`status_id == 2`); admins see everything; any other
authenticated user sees their own posts plus published ones. -/
def filter_published_posts (query : List Post) (current_user : Option User) :
    List Post :=
  match current_user with
  | none => query.filter (fun p => p.status_id == some 2)
  | some u =>
    if u.role == "admin" then query
    else query.filter (fun p => p.author_id == u.id || p.status_id == some 2)

/-- Python truthiness of the `Optional[str]` `status` query parameter:
`None` and `""` are falsy. -/
def strOptTruthy : Option String → Bool
  | none => false
  | some s => s != ""

/-- Whether the principal may filter by arbitrary status:
`current_user` present with role `admin` or `author`. -/
def roleMayFilterStatus : Option User → Bool
  | none => false
  | some u => u.role == "admin" || u.role == "author"

/-- `GET /tags/{tag_id}/posts` (`get_posts_by_tag` in `main.py`): 404 when
the tag is absent; posts joined through `post_tags`; a truthy `status`
parameter demands role admin or author (else 403) and filters by the joined
status name — no visibility filter on that branch; a falsy `status` applies
`filter_published_posts`; then the handler inlines the same
offset/limit/pages computation as `paginate` (no ordering). -/
def get_posts_by_tag (db : DB) (tag_id : Nat) (page limit : Nat)
    (status : Option String) (current_user : Option User) :
    Except HTTPException (Paginated Post) :=
  match db.tags.find? (fun t => t.id == tag_id) with
  | none => .error ⟨404, "Tag not found"⟩
  | some _ =>
    let query := db.posts.filter
      (fun p => db.postTags.any (fun pt => pt.1 == p.id && pt.2 == tag_id))
    match status with
    | some s =>
      if s = "" then
        .ok (paginate (filter_published_posts query current_user) page limit)
      else if !(roleMayFilterStatus current_user) then
        .error ⟨403, "Not authorized to filter by status"⟩
      else
        .ok (paginate (query.filter (fun p =>
          db.statuses.any (fun st => some st.id == p.status_id &&
            st.name == s))) page limit)
    | none =>
      .ok (paginate (filter_published_posts query current_user) page limit)

/-- C4: with an explicit status filter and an admin- or author-role
principal, the by-tag listing paginates exactly the posts carrying the tag
and the named status — the ownership/visibility filter is not applied — so
it contains any draft post carrying them even when authored by another
user. -/
theorem get_posts_by_tag_status_branch_skips_visibility (db : DB)
    (tag_id page limit : Nat) (s : String) (u : User) (T : Tag) (P : Post)
    (hT : db.tags.find? (fun t => t.id == tag_id) = some T) (hs : s ≠ "")
    (hrole : u.role = "admin" ∨ u.role = "author")
    (hmemP : P ∈ db.posts)
    (htag : db.postTags.any (fun pt => pt.1 == P.id && pt.2 == tag_id) = true)
    (hst : db.statuses.any (fun st => some st.id == P.status_id &&
      st.name == s) = true) :
    get_posts_by_tag db tag_id page limit (some s) (some u) =
      .ok (paginate ((db.posts.filter (fun p =>
        db.postTags.any (fun pt => pt.1 == p.id && pt.2 == tag_id))).filter
        (fun p => db.statuses.any (fun st => some st.id == p.status_id &&
          st.name == s))) page limit) ∧
    P ∈ (db.posts.filter (fun p =>
      db.postTags.any (fun pt => pt.1 == p.id && pt.2 == tag_id))).filter
      (fun p => db.statuses.any (fun st => some st.id == p.status_id &&
        st.name == s)) := by
  constructor
  · have hr : roleMayFilterStatus (some u) = true := by
      rcases hrole with h | h <;> simp [roleMayFilterStatus, h]
    simp [get_posts_by_tag, hT, hs, hr]
  · exact List.mem_filter.mpr ⟨List.mem_filter.mpr ⟨hmemP, htag⟩, hst⟩

/-- Concrete instantiation of
`get_posts_by_tag_status_branch_skips_visibility`: an author-role principal
filtering by status "draft" receives another user's draft post. -/
theorem get_posts_by_tag_status_branch_skips_visibility_witness :
    get_posts_by_tag
      ⟨[⟨5, "u", "e", "pw", "author"⟩], [⟨1, "t", "c", 9, some 1, 0⟩], [],
        [⟨3, "misc"⟩], [⟨1, "draft", "d"⟩], [], [(1, 3)], 6, 2, 1, 4⟩
      3 1 10 (some "draft") (some ⟨5, "u", "e", "pw", "author"⟩) =
      .ok (paginate (((⟨[⟨5, "u", "e", "pw", "author"⟩],
        [⟨1, "t", "c", 9, some 1, 0⟩], [], [⟨3, "misc"⟩], [⟨1, "draft", "d"⟩],
        [], [(1, 3)], 6, 2, 1, 4⟩ : DB).posts.filter (fun p =>
          (⟨[⟨5, "u", "e", "pw", "author"⟩], [⟨1, "t", "c", 9, some 1, 0⟩],
            [], [⟨3, "misc"⟩], [⟨1, "draft", "d"⟩], [], [(1, 3)], 6, 2, 1,
            4⟩ : DB).postTags.any (fun pt => pt.1 == p.id &&
              pt.2 == 3))).filter
        (fun p => (⟨[⟨5, "u", "e", "pw", "author"⟩],
          [⟨1, "t", "c", 9, some 1, 0⟩], [], [⟨3, "misc"⟩],
          [⟨1, "draft", "d"⟩], [], [(1, 3)], 6, 2, 1, 4⟩ : DB).statuses.any
          (fun st => some st.id == p.status_id && st.name == "draft")))
        1 10) ∧
    (⟨1, "t", "c", 9, some 1, 0⟩ : Post) ∈
      ((⟨[⟨5, "u", "e", "pw", "author"⟩], [⟨1, "t", "c", 9, some 1, 0⟩], [],
        [⟨3, "misc"⟩], [⟨1, "draft", "d"⟩], [], [(1, 3)], 6, 2, 1,
        4⟩ : DB).posts.filter (fun p =>
          (⟨[⟨5, "u", "e", "pw", "author"⟩], [⟨1, "t", "c", 9, some 1, 0⟩],
            [], [⟨3, "misc"⟩], [⟨1, "draft", "d"⟩], [], [(1, 3)], 6, 2, 1,
            4⟩ : DB).postTags.any (fun pt => pt.1 == p.id &&
              pt.2 == 3))).filter
        (fun p => (⟨[⟨5, "u", "e", "pw", "author"⟩],
          [⟨1, "t", "c", 9, some 1, 0⟩], [], [⟨3, "misc"⟩],
          [⟨1, "draft", "d"⟩], [], [(1, 3)], 6, 2, 1, 4⟩ : DB).statuses.any
          (fun st => some st.id == p.status_id && st.name == "draft")) :=
  get_posts_by_tag_status_branch_skips_visibility
    ⟨[⟨5, "u", "e", "pw", "author"⟩], [⟨1, "t", "c", 9, some 1, 0⟩], [],
      [⟨3, "misc"⟩], [⟨1, "draft", "d"⟩], [], [(1, 3)], 6, 2, 1, 4⟩
    3 1 10 "draft" ⟨5, "u", "e", "pw", "author"⟩ ⟨3, "misc"⟩
    ⟨1, "t", "c", 9, some 1, 0⟩ (by decide) (by decide) (Or.inr rfl)
    (by decide) (by decide) (by decide)

/-- C5: on an existing tag, the by-tag listing answers 403 Forbidden exactly
when the status filter is truthy and the principal is anonymous or has a
role outside {admin, author}; with a falsy status filter no role check is
performed and the request never yields 403. -/
theorem get_posts_by_tag_forbidden_iff (db : DB) (tag_id page limit : Nat)
    (status : Option String) (cu : Option User) (T : Tag)
    (hT : db.tags.find? (fun t => t.id == tag_id) = some T) :
    get_posts_by_tag db tag_id page limit status cu =
        .error ⟨403, "Not authorized to filter by status"⟩ ↔
      (strOptTruthy status = true ∧ roleMayFilterStatus cu = false) := by
  cases status with
  | none => simp [get_posts_by_tag, hT, strOptTruthy]
  | some s =>
    by_cases hs : s = ""
    · simp [get_posts_by_tag, hT, strOptTruthy, hs]
    · cases hr : roleMayFilterStatus cu <;>
        simp [get_posts_by_tag, hT, strOptTruthy, hs, hr]

/-- Concrete instantiation of `get_posts_by_tag_forbidden_iff`: an anonymous
caller filtering an existing tag by status is rejected with 403. -/
theorem get_posts_by_tag_forbidden_iff_witness :
    get_posts_by_tag ⟨[], [], [], [⟨3, "misc"⟩], [], [], [], 1, 1, 1, 4⟩
        3 1 10 (some "draft") none =
        .error ⟨403, "Not authorized to filter by status"⟩ ↔
      (strOptTruthy (some "draft") = true ∧ roleMayFilterStatus none = false) :=
  get_posts_by_tag_forbidden_iff
    ⟨[], [], [], [⟨3, "misc"⟩], [], [], [], 1, 1, 1, 4⟩ 3 1 10
    (some "draft") none ⟨3, "misc"⟩ (by decide)

/-- `stateAfter` for operations that also return a value. -/
def stateAfterWith {α : Type} (db : DB) (r : Except HTTPException (DB × α)) :
    DB :=
  match r with
  | .ok (db1, _) => db1
  | .error _ => db

/-- Request body of `POST /posts` (`schemas.PostCreate`): `status_id` is an
optional int (schema default 1 supplied by the client layer), `tags` a list
of names. -/
structure PostCreate where
  title : String
  content : String
  status_id : Option Nat
  tags : List String
  deriving Repr, DecidableEq

/-- Request body of `PUT /posts/{post_id}` (`schemas.PostUpdate`): every
field optional; `none` means the field was not supplied. -/
structure PostUpdate where
  title : Option String
  content : Option String
  status_id : Option Nat
  tags : Option (List String)
  deriving Repr, DecidableEq

/-- One iteration of the tag loop in `create_post`/`update_post`: look the
tag up by exact name; when absent create it (`db.add` + `db.flush` assigns
the next id); then `db_post.tags.append(tag)` records a `post_tags` row. -/
def attachTagStep (db : DB) (post_id : Nat) (name : String) : DB :=
  match db.tags.find? (fun t => t.name == name) with
  | some t => { db with postTags := db.postTags ++ [(post_id, t.id)] }
  | none =>
    { db with
        tags := db.tags ++ [⟨db.nextTagId, name⟩],
        nextTagId := db.nextTagId + 1,
        postTags := db.postTags ++ [(post_id, db.nextTagId)] }

/-- `for tag_name in post.tags: ...` — the whole get-or-create loop. -/
def attachTags (db : DB) (post_id : Nat) : List String → DB
  | [] => db
  | name :: rest => attachTags (attachTagStep db post_id name) post_id rest

/-- `POST /posts` (`create_post` in `main.py`): verify the referenced status
exists (404 before any write), insert the post with the caller as author,
run the tag get-or-create loop, commit. -/
def create_post (db : DB) (post : PostCreate) (current_user : User)
    (now : Nat) : Except HTTPException (DB × Post) :=
  match db.statuses.find? (fun st => some st.id == post.status_id) with
  | none => .error ⟨404, "Status not found"⟩
  | some _ =>
    let db_post : Post :=
      ⟨db.nextPostId, post.title, post.content, current_user.id,
        post.status_id, now⟩
    let db1 : DB :=
      { db with posts := db.posts ++ [db_post],
                nextPostId := db.nextPostId + 1 }
    .ok (attachTags db1 db_post.id post.tags, db_post)

/-- `check_resource_permission` from `main.py`: admins may do anything,
others only act on their own resources.  (Its `action` argument only labels
the 403 message and is inlined at the call sites here.) -/
def check_resource_permission (user : User) (resource_owner_id : Nat) :
    Bool :=
  if user.role == "admin" then true
  else user.id == resource_owner_id

/-- `PUT /posts/{post_id}` (`update_post` in `main.py`): 404 when absent,
403 via `check_resource_permission`, partial update of the supplied fields
(`dict(exclude_unset=True, exclude={'tags'})`), and — only when `tags` was
supplied — `db_post.tags = []` followed by the get-or-create loop. -/
def update_post (db : DB) (post_id : Nat) (pu : PostUpdate)
    (current_user : User) : Except HTTPException (DB × Post) :=
  match db.posts.find? (fun p => p.id == post_id) with
  | none => .error ⟨404, "Post not found"⟩
  | some db_post =>
    if !(check_resource_permission current_user db_post.author_id) then
      .error ⟨403, "Not authorized to edit this resource"⟩
    else
      let p1 : Post :=
        { db_post with
            title := pu.title.getD db_post.title,
            content := pu.content.getD db_post.content,
            status_id :=
              match pu.status_id with
              | some s => some s
              | none => db_post.status_id }
      let db1 : DB :=
        { db with
            posts := db.posts.map (fun q => if q.id == post_id then p1 else q) }
      match pu.tags with
      | none => .ok (db1, p1)
      | some names =>
        let db2 : DB :=
          { db1 with
              postTags := db1.postTags.filter (fun pt => !(pt.1 == post_id)) }
        .ok (attachTags db2 post_id names, p1)

/-- Number of tag rows carrying the given name. -/
def countTagsNamed (db : DB) (name : String) : Nat :=
  (db.tags.filter (fun t => t.name == name)).length

/-- Whether the post is linked (via `post_tags`) to a tag row carrying the
given name. -/
def postHasTagNamed (db : DB) (post_id : Nat) (name : String) : Bool :=
  db.tags.any (fun t => t.name == name && db.postTags.contains (post_id, t.id))

theorem postHasTagNamed_iff {db : DB} {pid : Nat} {nm : String} :
    postHasTagNamed db pid nm = true ↔
      ∃ t, t ∈ db.tags ∧ t.name = nm ∧ (pid, t.id) ∈ db.postTags := by
  simp [postHasTagNamed, List.any_eq_true, List.contains, List.elem_iff,
    and_assoc]

theorem attachTagStep_tags_mono {t : Tag} {db : DB} {pid : Nat}
    {name : String} (h : t ∈ db.tags) : t ∈ (attachTagStep db pid name).tags := by
  unfold attachTagStep
  cases hf : db.tags.find? (fun x => x.name == name) with
  | some t0 => exact h
  | none => simp [h]

theorem attachTagStep_postTags_mono {pt : Nat × Nat} {db : DB} {pid : Nat}
    {name : String} (h : pt ∈ db.postTags) :
    pt ∈ (attachTagStep db pid name).postTags := by
  unfold attachTagStep
  cases hf : db.tags.find? (fun x => x.name == name) with
  | some t0 => simp [h]
  | none => simp [h]

theorem attachTags_tags_mono {t : Tag} {pid : Nat} {names : List String}
    {db : DB} (h : t ∈ db.tags) : t ∈ (attachTags db pid names).tags := by
  induction names generalizing db with
  | nil => exact h
  | cons name rest ih => exact ih (attachTagStep_tags_mono h)

theorem attachTags_postTags_mono {pt : Nat × Nat} {pid : Nat}
    {names : List String} {db : DB} (h : pt ∈ db.postTags) :
    pt ∈ (attachTags db pid names).postTags := by
  induction names generalizing db with
  | nil => exact h
  | cons name rest ih => exact ih (attachTagStep_postTags_mono h)

theorem countTagsNamed_eq_zero_iff {db : DB} {nm : String} :
    countTagsNamed db nm = 0 ↔
      db.tags.find? (fun t => t.name == nm) = none := by
  simp [countTagsNamed, List.length_eq_zero, List.filter_eq_nil_iff,
    List.find?_eq_none]

theorem attachTagStep_count {db : DB} {pid : Nat} {name nm : String} :
    countTagsNamed (attachTagStep db pid name) nm =
      if countTagsNamed db name = 0 ∧ nm = name
      then countTagsNamed db nm + 1 else countTagsNamed db nm := by
  unfold attachTagStep
  cases hf : db.tags.find? (fun x => x.name == name) with
  | some t0 =>
    have hne : ¬ (countTagsNamed db name = 0 ∧ nm = name) := by
      rintro ⟨h0, -⟩
      rw [countTagsNamed_eq_zero_iff.mp h0] at hf
      cases hf
    rw [if_neg hne]
    rfl
  | none =>
    have h0 : countTagsNamed db name = 0 := countTagsNamed_eq_zero_iff.mpr hf
    by_cases hnm : nm = name
    · subst hnm
      rw [if_pos ⟨h0, rfl⟩]
      simp [countTagsNamed, List.filter_append]
    · rw [if_neg (by rintro ⟨-, h⟩; exact hnm h)]
      simp [countTagsNamed, List.filter_append, Ne.symm hnm]

theorem attachTags_count {pid : Nat} {names : List String} {db : DB}
    {nm : String} :
    countTagsNamed (attachTags db pid names) nm =
      if 0 < countTagsNamed db nm then countTagsNamed db nm
      else if names.contains nm then 1 else 0 := by
  induction names generalizing db with
  | nil =>
    by_cases h : 0 < countTagsNamed db nm
    · simp [attachTags, h]
    · simp [attachTags, h, List.contains]
      omega
  | cons name rest ih =>
    show countTagsNamed (attachTags (attachTagStep db pid name) pid rest) nm = _
    rw [ih, attachTagStep_count]
    by_cases hcase : countTagsNamed db name = 0 ∧ nm = name
    · obtain ⟨h0, rfl⟩ := hcase
      simp [h0, List.contains_cons]
    · rw [if_neg hcase]
      by_cases hpos : 0 < countTagsNamed db nm
      · simp [hpos]
      · have hnm : nm ≠ name := by
          intro rfl0
          subst rfl0
          exact hcase ⟨by omega, rfl⟩
        simp [hpos, List.contains_cons, hnm]

theorem attachTags_attaches {pid : Nat} {names : List String} {db : DB}
    {nm : String} (h : nm ∈ names) :
    postHasTagNamed (attachTags db pid names) pid nm = true := by
  induction names generalizing db with
  | nil => cases h
  | cons name rest ih =>
    rcases List.mem_cons.mp h with rfl | hmem
    · apply postHasTagNamed_iff.mpr
      have hstep : ∃ t, t ∈ (attachTagStep db pid nm).tags ∧ t.name = nm ∧
          (pid, t.id) ∈ (attachTagStep db pid nm).postTags := by
        unfold attachTagStep
        cases hf : db.tags.find? (fun x => x.name == nm) with
        | some t0 =>
          refine ⟨t0, List.mem_of_find?_eq_some hf, ?_, by simp⟩
          have := List.find?_some hf
          simpa using this
        | none => exact ⟨⟨db.nextTagId, nm⟩, by simp, rfl, by simp⟩
      obtain ⟨t, ht, hn, hp⟩ := hstep
      exact ⟨t, @attachTags_tags_mono t pid rest (attachTagStep db pid nm) ht,
        hn,
        @attachTags_postTags_mono (pid, t.id) pid rest (attachTagStep db pid nm)
          hp⟩
    · exact ih hmem

theorem attachTags_pair_source {pid : Nat} {names : List String} {db : DB}
    {pt : Nat × Nat} (h : pt ∈ (attachTags db pid names).postTags) :
    pt ∈ db.postTags ∨
      (pt.1 = pid ∧ ∃ t, t ∈ (attachTags db pid names).tags ∧
        t.id = pt.2 ∧ t.name ∈ names) := by
  induction names generalizing db with
  | nil => exact .inl h
  | cons name rest ih =>
    rcases ih h with h1 | ⟨hfst, t, ht, hid, hname⟩
    · unfold attachTagStep at h1
      cases hf : db.tags.find? (fun x => x.name == name) with
      | some t0 =>
        rw [hf] at h1
        simp only [List.mem_append, List.mem_singleton] at h1
        rcases h1 with h1 | h1
        · exact .inl h1
        · refine .inr ⟨by simp [h1], t0,
            attachTags_tags_mono (List.mem_of_find?_eq_some hf),
            by simp [h1], ?_⟩
          have := List.find?_some hf
          simp only [beq_iff_eq] at this
          simp [this]
      | none =>
        rw [hf] at h1
        simp only [List.mem_append, List.mem_singleton] at h1
        rcases h1 with h1 | h1
        · exact .inl h1
        · have htag : (⟨db.nextTagId, name⟩ : Tag) ∈
              (attachTagStep db pid name).tags := by
            unfold attachTagStep
            rw [hf]
            simp
          exact .inr ⟨by simp [h1], ⟨db.nextTagId, name⟩,
            @attachTags_tags_mono ⟨db.nextTagId, name⟩ pid rest
              (attachTagStep db pid name) htag, by simp [h1], by simp⟩
    · exact .inr ⟨hfst, t, ht, hid, List.mem_cons_of_mem _ hname⟩

/-- The primary-key invariant on the `tags` table: every id is below the
autoincrement counter, and ids are unique. -/
def TagIdInv (db : DB) : Prop :=
  (∀ t ∈ db.tags, t.id < db.nextTagId) ∧ (db.tags.map Tag.id).Nodup

theorem attachTagStep_tagIdInv {db : DB} {pid : Nat} {name : String}
    (h : TagIdInv db) : TagIdInv (attachTagStep db pid name) := by
  obtain ⟨hlt, hnd⟩ := h
  unfold attachTagStep
  cases hf : db.tags.find? (fun x => x.name == name) with
  | some t0 => exact ⟨hlt, hnd⟩
  | none =>
    constructor
    · intro t ht
      simp only [List.mem_append, List.mem_singleton] at ht
      rcases ht with ht | ht
      · exact Nat.lt_succ_of_lt (hlt t ht)
      · simp [ht]
    · rw [List.map_append, List.nodup_append]
      refine ⟨hnd, List.nodup_singleton _, ?_⟩
      intro x hx hx1
      simp only [List.map_cons, List.map_nil, List.mem_singleton] at hx1
      obtain ⟨t, ht, rfl⟩ := List.mem_map.mp hx
      have := hlt t ht
      omega

theorem attachTags_tagIdInv {pid : Nat} {names : List String} {db : DB}
    (h : TagIdInv db) : TagIdInv (attachTags db pid names) := by
  induction names generalizing db with
  | nil => exact h
  | cons name rest ih => exact ih (attachTagStep_tagIdInv h)

/-- C7: creating a post whose `status_id` matches no `Status` row fails with
404 and leaves the database untouched (no post, no tag persisted); when the
status exists the operation succeeds, every supplied tag name ends up
attached to the new post by exact-match resolution, and a tag row is created
only for names that had none (never duplicating an existing name). -/
theorem create_post_contract (db : DB) (pc : PostCreate) (u : User)
    (now : Nat) (name nm : String) :
    (db.statuses.find? (fun st => some st.id == pc.status_id) = none →
      create_post db pc u now = .error ⟨404, "Status not found"⟩ ∧
      stateAfterWith db (create_post db pc u now) = db) ∧
    ((db.statuses.find? (fun st => some st.id == pc.status_id)).isSome =
        true →
      (create_post db pc u now).isOk = true ∧
      (name ∈ pc.tags →
        postHasTagNamed (stateAfterWith db (create_post db pc u now))
          db.nextPostId name = true) ∧
      countTagsNamed (stateAfterWith db (create_post db pc u now)) nm =
        (if 0 < countTagsNamed db nm then countTagsNamed db nm
         else if pc.tags.contains nm then 1 else 0)) := by
  constructor
  · intro hnone
    simp [create_post, hnone, stateAfterWith]
  · intro hsome
    obtain ⟨st, hst⟩ := Option.isSome_iff_exists.mp hsome
    refine ⟨?_, ?_, ?_⟩
    · simp [create_post, hst, Except.isOk, Except.toBool]
    · intro hname
      simp only [create_post, hst, stateAfterWith]
      exact attachTags_attaches hname
    · simp only [create_post, hst, stateAfterWith]
      rw [attachTags_count]
      rfl

/-- Concrete instantiation of `create_post_contract`: creating against a
database holding status 1 and tag "old", with tag list ["old", "new"]. -/
theorem create_post_contract_witness :
    ((⟨[], [], [], [⟨1, "old"⟩], [⟨1, "draft", "d"⟩], [], [], 1, 1, 1,
        2⟩ : DB).statuses.find? (fun st => some st.id ==
        (⟨"T", "C", some 1, ["old", "new"]⟩ : PostCreate).status_id) = none →
      create_post ⟨[], [], [], [⟨1, "old"⟩], [⟨1, "draft", "d"⟩], [], [], 1,
          1, 1, 2⟩ ⟨"T", "C", some 1, ["old", "new"]⟩ ⟨9, "u", "e", "pw",
          "reader"⟩ 0 = .error ⟨404, "Status not found"⟩ ∧
      stateAfterWith ⟨[], [], [], [⟨1, "old"⟩], [⟨1, "draft", "d"⟩], [], [],
          1, 1, 1, 2⟩ (create_post ⟨[], [], [], [⟨1, "old"⟩],
          [⟨1, "draft", "d"⟩], [], [], 1, 1, 1, 2⟩
          ⟨"T", "C", some 1, ["old", "new"]⟩ ⟨9, "u", "e", "pw", "reader"⟩
          0) = ⟨[], [], [], [⟨1, "old"⟩], [⟨1, "draft", "d"⟩], [], [], 1, 1,
          1, 2⟩) ∧
    (((⟨[], [], [], [⟨1, "old"⟩], [⟨1, "draft", "d"⟩], [], [], 1, 1, 1,
        2⟩ : DB).statuses.find? (fun st => some st.id ==
        (⟨"T", "C", some 1, ["old", "new"]⟩ : PostCreate).status_id)).isSome =
        true →
      (create_post ⟨[], [], [], [⟨1, "old"⟩], [⟨1, "draft", "d"⟩], [], [], 1,
          1, 1, 2⟩ ⟨"T", "C", some 1, ["old", "new"]⟩ ⟨9, "u", "e", "pw",
          "reader"⟩ 0).isOk = true ∧
      ("new" ∈ (⟨"T", "C", some 1, ["old", "new"]⟩ : PostCreate).tags →
        postHasTagNamed (stateAfterWith ⟨[], [], [], [⟨1, "old"⟩],
          [⟨1, "draft", "d"⟩], [], [], 1, 1, 1, 2⟩ (create_post ⟨[], [], [],
          [⟨1, "old"⟩], [⟨1, "draft", "d"⟩], [], [], 1, 1, 1, 2⟩
          ⟨"T", "C", some 1, ["old", "new"]⟩ ⟨9, "u", "e", "pw", "reader"⟩
          0)) (⟨[], [], [], [⟨1, "old"⟩], [⟨1, "draft", "d"⟩], [], [], 1, 1,
          1, 2⟩ : DB).nextPostId "new" = true) ∧
      countTagsNamed (stateAfterWith ⟨[], [], [], [⟨1, "old"⟩],
          [⟨1, "draft", "d"⟩], [], [], 1, 1, 1, 2⟩ (create_post ⟨[], [], [],
          [⟨1, "old"⟩], [⟨1, "draft", "d"⟩], [], [], 1, 1, 1, 2⟩
          ⟨"T", "C", some 1, ["old", "new"]⟩ ⟨9, "u", "e", "pw", "reader"⟩
          0)) "old" =
        (if 0 < countTagsNamed ⟨[], [], [], [⟨1, "old"⟩],
            [⟨1, "draft", "d"⟩], [], [], 1, 1, 1, 2⟩ "old" then
          countTagsNamed ⟨[], [], [], [⟨1, "old"⟩], [⟨1, "draft", "d"⟩], [],
            [], 1, 1, 1, 2⟩ "old"
         else if (⟨"T", "C", some 1, ["old", "new"]⟩ :
            PostCreate).tags.contains "old" then 1 else 0)) :=
  create_post_contract ⟨[], [], [], [⟨1, "old"⟩], [⟨1, "draft", "d"⟩], [],
    [], 1, 1, 1, 2⟩ ⟨"T", "C", some 1, ["old", "new"]⟩
    ⟨9, "u", "e", "pw", "reader"⟩ 0 "new" "old"

theorem attachTags_cleared_names {pid : Nat} {names : List String} {db : DB}
    {nm : String} (hinv : TagIdInv db)
    (hclear : ∀ q ∈ db.postTags, ¬ q.1 = pid) :
    postHasTagNamed (attachTags db pid names) pid nm = names.contains nm := by
  cases hc : names.contains nm with
  | true =>
    have hmem : nm ∈ names := by
      have : names.elem nm = true := by simpa [List.contains] using hc
      exact List.elem_iff.mp this
    exact attachTags_attaches hmem
  | false =>
    have hnmem : nm ∉ names := by
      intro hmem
      have hco : names.contains nm = true := by
        simp only [List.contains]
        exact List.elem_iff.mpr hmem
      rw [hco] at hc
      cases hc
    apply Bool.eq_false_iff.mpr
    intro habs
    obtain ⟨t, ht, hname, hpair⟩ := postHasTagNamed_iff.mp habs
    rcases attachTags_pair_source hpair with h1 | ⟨-, t2, ht2, hid2, hname2⟩
    · exact hclear _ h1 rfl
    · have hinv2 := @attachTags_tagIdInv pid names db hinv
      have heq : t2 = t := List.inj_on_of_nodup_map hinv2.2 ht2 ht hid2
      rw [heq, hname] at hname2
      exact hnmem hname2

/-- C8: an authorized update changes exactly the supplied fields of the
post (id, author, creation time and unsupplied fields are untouched);
omitting `tags` leaves the tag table and the whole association table exactly
as they were; supplying `tags` — even `[]` — replaces the post's tag set by
the get-or-create resolution of exactly the supplied names, never touching
other posts' associations and never duplicating an existing tag row. -/
theorem update_post_contract (db : DB) (post_id : Nat) (pu : PostUpdate)
    (u : User) (P : Post) (names : List String) (nm : String)
    (pt : Nat × Nat)
    (hP : db.posts.find? (fun p => p.id == post_id) = some P)
    (hperm : check_resource_permission u P.author_id = true)
    (hinv : TagIdInv db) :
    update_post db post_id pu u =
      .ok (stateAfterWith db (update_post db post_id pu u),
        ⟨P.id, pu.title.getD P.title, pu.content.getD P.content, P.author_id,
          if pu.status_id.isSome then pu.status_id else P.status_id,
          P.created_at⟩) ∧
    (pu.tags = none →
      stateAfterWith db (update_post db post_id pu u) =
        { db with posts := db.posts.map (fun q =>
            if q.id == post_id then
              ⟨P.id, pu.title.getD P.title, pu.content.getD P.content,
                P.author_id,
                if pu.status_id.isSome then pu.status_id else P.status_id,
                P.created_at⟩
            else q) }) ∧
    (pu.tags = some names →
      postHasTagNamed (stateAfterWith db (update_post db post_id pu u))
        post_id nm = names.contains nm ∧
      countTagsNamed (stateAfterWith db (update_post db post_id pu u)) nm =
        (if 0 < countTagsNamed db nm then countTagsNamed db nm
         else if names.contains nm then 1 else 0) ∧
      (pt ∈ db.postTags → ¬ pt.1 = post_id →
        pt ∈ (stateAfterWith db (update_post db post_id pu u)).postTags)) := by
  have hpost_eq :
      (⟨P.id, pu.title.getD P.title, pu.content.getD P.content, P.author_id,
        if pu.status_id.isSome then pu.status_id else P.status_id,
        P.created_at⟩ : Post) =
      { P with
          title := pu.title.getD P.title,
          content := pu.content.getD P.content,
          status_id :=
            match pu.status_id with
            | some s => some s
            | none => P.status_id } := by
    cases pu.status_id <;> rfl
  refine ⟨?_, ?_, ?_⟩
  · rw [hpost_eq]
    cases htags : pu.tags with
    | none => simp [update_post, hP, hperm, stateAfterWith, htags]
    | some names0 => simp [update_post, hP, hperm, stateAfterWith, htags]
  · intro htags
    simp [update_post, hP, hperm, stateAfterWith, htags, hpost_eq]
  · intro htags
    refine ⟨?_, ?_, ?_⟩
    · simp only [update_post, hP, hperm, Bool.not_true, Bool.false_eq_true,
        if_false, htags, stateAfterWith]
      apply attachTags_cleared_names
      · exact ⟨hinv.1, hinv.2⟩
      · intro q hq
        have := (List.mem_filter.mp hq).2
        simpa using this
    · simp only [update_post, hP, hperm, Bool.not_true, Bool.false_eq_true,
        if_false, htags, stateAfterWith]
      rw [attachTags_count]
      rfl
    · intro hmem hne
      simp only [update_post, hP, hperm, Bool.not_true, Bool.false_eq_true,
        if_false, htags, stateAfterWith]
      apply attachTags_postTags_mono
      refine List.mem_filter.mpr ⟨hmem, ?_⟩
      simp [hne]

/-- Example database for the update-post witness: post 1 by user 5 carrying
tag "old" (association (1, 1)); association (2, 1) belongs to post 2. -/
def dbU : DB :=
  ⟨[⟨5, "u", "e", "pw", "reader"⟩], [⟨1, "t", "c", 5, some 1, 0⟩], [],
    [⟨1, "old"⟩], [⟨1, "draft", "d"⟩, ⟨2, "published", "p"⟩], [],
    [(1, 1), (2, 1)], 6, 2, 1, 2⟩

/-- Example update payload: new title, tag set replaced by ["fresh"]. -/
def puU : PostUpdate := ⟨some "T2", none, none, some ["fresh"]⟩

/-- Concrete instantiation of `update_post_contract`: the author retitles
post 1 and replaces its tag "old" by "fresh"; the association of post 2 is
untouched. -/
theorem update_post_contract_witness :
    update_post dbU 1 puU ⟨5, "u", "e", "pw", "reader"⟩ =
      .ok (stateAfterWith dbU (update_post dbU 1 puU
          ⟨5, "u", "e", "pw", "reader"⟩), ⟨1, "T2", "c", 5, some 1, 0⟩) ∧
    (puU.tags = none →
      stateAfterWith dbU (update_post dbU 1 puU
          ⟨5, "u", "e", "pw", "reader"⟩) =
        { dbU with posts := dbU.posts.map (fun q =>
            if q.id == 1 then ⟨1, "T2", "c", 5, some 1, 0⟩ else q) }) ∧
    (puU.tags = some ["fresh"] →
      postHasTagNamed (stateAfterWith dbU (update_post dbU 1 puU
          ⟨5, "u", "e", "pw", "reader"⟩)) 1 "old" =
        ["fresh"].contains "old" ∧
      countTagsNamed (stateAfterWith dbU (update_post dbU 1 puU
          ⟨5, "u", "e", "pw", "reader"⟩)) "old" =
        (if 0 < countTagsNamed dbU "old" then countTagsNamed dbU "old"
         else if ["fresh"].contains "old" then 1 else 0) ∧
      ((2, 1) ∈ dbU.postTags → ¬ (2, 1).1 = 1 →
        (2, 1) ∈ (stateAfterWith dbU (update_post dbU 1 puU
          ⟨5, "u", "e", "pw", "reader"⟩)).postTags)) :=
  update_post_contract dbU 1 puU ⟨5, "u", "e", "pw", "reader"⟩
    ⟨1, "t", "c", 5, some 1, 0⟩ ["fresh"] "old" (2, 1)
    (by decide) (by decide) ⟨by decide, by decide⟩

/-- `passlib`'s bcrypt hashing — an external collaborator of the core;
modelled as an injective tagging of the password. -/
def get_password_hash (password : String) : String :=
  String.append "bcrypt$" password

/-- `validate_password` from `main.py`: at least 8 characters with an upper-
case letter, a lower-case letter and a digit. -/
def validate_password (password : String) : Bool :=
  if password.length < 8 then false
  else if !(password.toList.any Char.isUpper) then false
  else if !(password.toList.any Char.isLower) then false
  else if !(password.toList.any Char.isDigit) then false
  else true

/-- Request body of `POST /auth/register` (`schemas.UserCreate`); an absent
`role` defaults to "reader" in the handler. -/
structure UserCreate where
  username : String
  email : String
  password : String
  role : Option String
  deriving Repr, DecidableEq

/-- `POST /auth/register` (`register_user` in `main.py`): an existing
username or email is rejected with HTTP 400, a weak password with 422;
otherwise the user row is inserted with role defaulting to "reader". -/
def register_user (db : DB) (user : UserCreate) :
    Except HTTPException (DB × User) :=
  if (db.users.find? (fun u => u.username == user.username)).isSome then
    .error ⟨400, "Username already registered"⟩
  else if (db.users.find? (fun u => u.email == user.email)).isSome then
    .error ⟨400, "Email already registered"⟩
  else if !(validate_password user.password) then
    .error ⟨422,
      "Password must be at least 8 characters and contain uppercase, lowercase, and numbers"⟩
  else
    let db_user : User :=
      ⟨db.nextUserId, user.username, user.email,
        get_password_hash user.password, user.role.getD "reader"⟩
    Except.ok
      ({ db with
          users := db.users ++ [db_user],
          nextUserId := db.nextUserId + 1 },
        db_user)

/-- The HTTP status code of a failed operation, `none` on success. -/
def errorStatus {α : Type} : Except HTTPException α → Option Nat
  | .error e => some e.status_code
  | .ok _ => none

/-- C9 counterexample: registering "bob" and then "bob" again — the second
attempt is rejected with HTTP 400, not with the 409 Conflict status that
the duplicate-like and duplicate-tag uniqueness violations use. -/
theorem register_duplicate_username_counterexample :
    (register_user ⟨[], [], [], [], [], [], [], 1, 1, 1, 1⟩
      ⟨"bob", "bob@example.com", "Password1", none⟩).isOk = true ∧
    errorStatus (register_user
      (stateAfterWith ⟨[], [], [], [], [], [], [], 1, 1, 1, 1⟩
        (register_user ⟨[], [], [], [], [], [], [], 1, 1, 1, 1⟩
          ⟨"bob", "bob@example.com", "Password1", none⟩))
      ⟨"bob", "bob2@example.com", "Password1", none⟩) = some 400 ∧
    some 400 ≠ some 409 := by
  refine ⟨by decide, by decide, by decide⟩

/-- C9 amended: after any successful registration, a second registration
with the same username fails with HTTP 400 "Username already registered"
and leaves the user table unchanged. -/
theorem register_duplicate_username_rejected (db db1 : DB)
    (r1 r2 : UserCreate) (u1 : User)
    (hsame : r2.username = r1.username)
    (h1 : register_user db r1 = .ok (db1, u1)) :
    register_user db1 r2 = .error ⟨400, "Username already registered"⟩ ∧
    stateAfterWith db1 (register_user db1 r2) = db1 := by
  unfold register_user at h1
  split at h1
  · cases h1
  · split at h1
    · cases h1
    · split at h1
      · cases h1
      · simp only [Except.ok.injEq, Prod.mk.injEq] at h1
        obtain ⟨hdb1, hu1⟩ := h1
        have hfind : ((db1.users).find?
            (fun u => u.username == r2.username)).isSome = true := by
          apply List.find?_isSome.mpr
          refine ⟨⟨db.nextUserId, r1.username, r1.email,
            get_password_hash r1.password, r1.role.getD "reader"⟩, ?_, ?_⟩
          · rw [← hdb1]
            simp
          · simp [hsame]
        constructor
        · unfold register_user
          simp [hfind]
        · unfold register_user
          simp [hfind, stateAfterWith]

/-- Concrete instantiation of `register_duplicate_username_rejected` on the
database produced by registering "bob" into an empty store. -/
theorem register_duplicate_username_rejected_witness :
    register_user ⟨[⟨1, "bob", "bob@example.com", "bcrypt$Password1",
        "reader"⟩], [], [], [], [], [], [], 2, 1, 1, 1⟩
      ⟨"bob", "bob2@example.com", "Password1", none⟩ =
      .error ⟨400, "Username already registered"⟩ ∧
    stateAfterWith ⟨[⟨1, "bob", "bob@example.com", "bcrypt$Password1",
        "reader"⟩], [], [], [], [], [], [], 2, 1, 1, 1⟩
      (register_user ⟨[⟨1, "bob", "bob@example.com", "bcrypt$Password1",
          "reader"⟩], [], [], [], [], [], [], 2, 1, 1, 1⟩
        ⟨"bob", "bob2@example.com", "Password1", none⟩) =
      ⟨[⟨1, "bob", "bob@example.com", "bcrypt$Password1", "reader"⟩], [],
        [], [], [], [], [], 2, 1, 1, 1⟩ :=
  register_duplicate_username_rejected
    ⟨[], [], [], [], [], [], [], 1, 1, 1, 1⟩
    ⟨[⟨1, "bob", "bob@example.com", "bcrypt$Password1", "reader"⟩], [], [],
      [], [], [], [], 2, 1, 1, 1⟩
    ⟨"bob", "bob@example.com", "Password1", none⟩
    ⟨"bob", "bob2@example.com", "Password1", none⟩
    ⟨1, "bob", "bob@example.com", "bcrypt$Password1", "reader"⟩
    rfl (by rfl)

end BlogApi
